import Mathlib

/-!
Shallow embedding of the project-management data core
(`src/models/user.py`, `src/models/project.py`, `src/models/task.py`,
`src/utils/storage.py`).

Python strings are `String`, Python ints are `Int`, Python `None`-able
arguments are `Option`, raising code returns `Except PyError`.  The three
class-level `_id_counter` globals are threaded explicitly as a `Counters`
record.  Dynamic (duck-typed) behaviour of `DataStore.load` on arbitrary
JSON documents is modelled over a `JValue` type further below.
-/

namespace PM

/-- The Python exception kinds raised by the embedded code.  Exception
message strings are elided: no claim depends on them. -/
inductive PyError where
  | typeError
  | keyError
  | valueError
  | attributeError
deriving DecidableEq, Repr

/-- Python `str.isspace` characters relevant to `str.strip()`:
space, tab, newline, carriage return, vertical tab, form feed. -/
def pyIsSpace (c : Char) : Bool :=
  c == ' ' || c == '\t' || c == '\n' || c == '\r' ||
  c == Char.ofNat 11 || c == Char.ofNat 12

/-- Python `value.strip()`: remove leading and trailing whitespace. -/
def pyStrip (s : String) : String :=
  String.mk (((s.toList.dropWhile pyIsSpace).reverse.dropWhile pyIsSpace).reverse)

/-- Python `c in s` membership of a single character in a string. -/
def pyContainsChar (s : String) (c : Char) : Bool :=
  s.toList.contains c

/-- Python `pat in s` substring test on strings. -/
def strContainsSub (s pat : String) : Bool :=
  (List.range (s.toList.length + 1)).any
    (fun i => pat.toList.isPrefixOf (s.toList.drop i))

/-- A naive calendar timestamp as produced by `dateutil.parser.parse`
(`datetime.datetime` fields). -/
structure DateTime where
  year : Nat
  month : Nat
  day : Nat
  hour : Nat
  minute : Nat
  second : Nat
  microsecond : Nat
deriving DecidableEq, Repr

/-- Modelled from the spec: a Python date string as seen through
`dateutil.parser.parse` (an external library, not part of src/).  Per the
spec, parsing is best-effort: a string either denotes a calendar date
(`iso d`, in particular every `datetime.isoformat()` output, which
`dateutil` parses back to exactly `d`) or fails to parse (`junk s`,
"unparseable input silently becomes absent"). -/
inductive DateStr where
  | iso (d : DateTime)
  | junk (s : String)
deriving DecidableEq, Repr

/-- Modelled from the spec: `dateutil.parser.parse` wrapped by
`Project._parse_date` — returns the denoted date, or `none` when parsing
fails (`ValueError`/`TypeError` caught in `_parse_date`). -/
def parseDateStr : DateStr → Option DateTime
  | .iso d => some d
  | .junk _ => none

/-- Python truthiness of the date string (`if due_date:`):
false only for the empty string. `isoformat()` output is never empty. -/
def dateStrTruthy : DateStr → Bool
  | .iso _ => true
  | .junk s => s != ""

/-- The three class-level `_id_counter` globals
(`User._id_counter`, `Project._id_counter`, `Task._id_counter`),
threaded explicitly.  Each starts at 1 at process start. -/
structure Counters where
  user : Int
  project : Int
  task : Int
deriving DecidableEq, Repr

/-- Process-start counter state: all three `_id_counter` globals are 1. -/
def Counters.fresh : Counters := ⟨1, 1, 1⟩

/-- Shared membership-list pattern `if x not in l: l.append(x)`
(`User.add_project`, `Project.add_task`, `Task.assign_user`). -/
def addIfAbsent (l : List Int) (x : Int) : List Int :=
  if x ∈ l then l else l ++ [x]

/-! ## `src/models/user.py` -/

/-- In-memory `User` object (`_id`, `_name`, `_email`, `_projects`). -/
structure User where
  id : Int
  name : String
  email : String
  projects : List Int
deriving DecidableEq, Repr

/-- `User.__init__(name, email, user_id=None)`.  Stores `name` and `email`
raw (no validation, no trimming); mints a fresh id from the class counter
when `user_id is None`, otherwise takes the explicit id and advances the
counter to `user_id + 1` when `user_id >= User._id_counter`. -/
def User.init (name email : String) (user_id : Option Int) (c : Counters) :
    User × Counters :=
  match user_id with
  | none => (⟨c.user, name, email, []⟩, { c with user := c.user + 1 })
  | some i => (⟨i, name, email, []⟩, if i ≥ c.user then { c with user := i + 1 } else c)

/-- `User.name` setter: `if not value or not value.strip(): raise ValueError`,
else store `value.strip()`. -/
def User.set_name (u : User) (value : String) : Except PyError User :=
  if value = "" ∨ pyStrip value = "" then .error .valueError
  else .ok { u with name := pyStrip value }

/-- `User.email` setter: `if not value or '@' not in value: raise ValueError`,
else store `value.strip()`. -/
def User.set_email (u : User) (value : String) : Except PyError User :=
  if value = "" ∨ pyContainsChar value '@' = false then .error .valueError
  else .ok { u with email := pyStrip value }

/-- `User.add_project`: `if project_id not in self._projects: append`. -/
def User.add_project (u : User) (project_id : Int) : User :=
  { u with projects := addIfAbsent u.projects project_id }

/-- `User.remove_project`: `if project_id in self._projects: remove`
(removes the first occurrence, exactly `List.erase`). -/
def User.remove_project (u : User) (project_id : Int) : User :=
  { u with projects := u.projects.erase project_id }

/-- The plain dict produced by `User.to_dict` / consumed by `User.from_dict`. -/
structure UserRec where
  id : Int
  name : String
  email : String
  projects : List Int
deriving DecidableEq, Repr

/-- `User.to_dict`. -/
def User.to_dict (u : User) : UserRec :=
  ⟨u.id, u.name, u.email, u.projects⟩

/-- `User.from_dict`: `cls(name=.., email=.., user_id=data['id'])` then
`user._projects = data.get('projects', [])` (assigned verbatim, no
de-duplication). -/
def User.from_dict (d : UserRec) (c : Counters) : User × Counters :=
  let (u, c') := User.init d.name d.email (some d.id) c
  ({ u with projects := d.projects }, c')

/-! ## `src/models/project.py` -/

/-- In-memory `Project` object. -/
structure Project where
  id : Int
  title : String
  description : String
  owner_id : Int
  due_date : Option DateTime
  tasks : List Int
deriving DecidableEq, Repr

/-- `Project.__init__(title, description, owner_id, due_date=None,
project_id=None)`.  `self._due_date = self._parse_date(due_date) if
due_date else None`; title and description stored raw. -/
def Project.init (title description : String) (owner_id : Int)
    (due_date : Option DateStr) (project_id : Option Int) (c : Counters) :
    Project × Counters :=
  let dd : Option DateTime :=
    match due_date with
    | some ds => if dateStrTruthy ds then parseDateStr ds else none
    | none => none
  match project_id with
  | none =>
      (⟨c.project, title, description, owner_id, dd, []⟩,
       { c with project := c.project + 1 })
  | some i =>
      (⟨i, title, description, owner_id, dd, []⟩,
       if i ≥ c.project then { c with project := i + 1 } else c)

/-- `Project.title` setter. -/
def Project.set_title (p : Project) (value : String) : Except PyError Project :=
  if value = "" ∨ pyStrip value = "" then .error .valueError
  else .ok { p with title := pyStrip value }

/-- `Project.description` setter: `value.strip() if value else ""`. -/
def Project.set_description (p : Project) (value : String) : Project :=
  { p with description := if value = "" then "" else pyStrip value }

/-- `Project.due_date` setter: `self._due_date = self._parse_date(value)`. -/
def Project.set_due_date (p : Project) (value : DateStr) : Project :=
  { p with due_date := parseDateStr value }

/-- `Project.add_task`: `if task_id not in self._tasks: append`. -/
def Project.add_task (p : Project) (task_id : Int) : Project :=
  { p with tasks := addIfAbsent p.tasks task_id }

/-- `Project.remove_task`: guarded first-occurrence removal. -/
def Project.remove_task (p : Project) (task_id : Int) : Project :=
  { p with tasks := p.tasks.erase task_id }

/-- The plain dict produced by `Project.to_dict` (the `due_date` entry is
`self._due_date.isoformat() if self._due_date else None`). -/
structure ProjectRec where
  id : Int
  title : String
  description : String
  owner_id : Int
  due_date : Option DateStr
  tasks : List Int
deriving DecidableEq, Repr

/-- `Project.to_dict`. -/
def Project.to_dict (p : Project) : ProjectRec :=
  ⟨p.id, p.title, p.description, p.owner_id, p.due_date.map DateStr.iso, p.tasks⟩

/-- `Project.from_dict`: constructor with `due_date=data.get('due_date')`,
then `project._tasks = data.get('tasks', [])` (verbatim, no de-dup). -/
def Project.from_dict (d : ProjectRec) (c : Counters) : Project × Counters :=
  let (p, c') := Project.init d.title d.description d.owner_id d.due_date (some d.id) c
  ({ p with tasks := d.tasks }, c')

/-! ## `src/models/task.py` -/

/-- In-memory `Task` object. -/
structure Task where
  id : Int
  title : String
  status : String
  project_id : Int
  assigned_to : List Int
deriving DecidableEq, Repr

/-- `Task.VALID_STATUSES`. -/
def Task.VALID_STATUSES : List String := ["pending", "in_progress", "completed"]

/-- `Task.__init__(title, project_id, status='pending', assigned_to=None,
task_id=None)`.  An invalid `status` silently becomes `'pending'`;
`self._assigned_to = assigned_to if assigned_to else []` keeps the given
list verbatim (no de-duplication). -/
def Task.init (title : String) (project_id : Int) (status : String)
    (assigned_to : Option (List Int)) (task_id : Option Int) (c : Counters) :
    Task × Counters :=
  let st := if status ∈ Task.VALID_STATUSES then status else "pending"
  let asg : List Int :=
    match assigned_to with
    | some l => if l = [] then [] else l
    | none => []
  match task_id with
  | none => (⟨c.task, title, st, project_id, asg⟩, { c with task := c.task + 1 })
  | some i => (⟨i, title, st, project_id, asg⟩, if i ≥ c.task then { c with task := i + 1 } else c)

/-- `Task.title` setter. -/
def Task.set_title (t : Task) (value : String) : Except PyError Task :=
  if value = "" ∨ pyStrip value = "" then .error .valueError
  else .ok { t with title := pyStrip value }

/-- `Task.status` setter: `if value not in Task.VALID_STATUSES: raise
ValueError`, else store `value`.  On error the task is unchanged (the
functional embedding returns no updated task). -/
def Task.set_status (t : Task) (value : String) : Except PyError Task :=
  if value ∈ Task.VALID_STATUSES then .ok { t with status := value }
  else .error .valueError

/-- `Task.assign_user`: `if user_id not in self._assigned_to: append`. -/
def Task.assign_user (t : Task) (user_id : Int) : Task :=
  { t with assigned_to := addIfAbsent t.assigned_to user_id }

/-- `Task.unassign_user`: guarded first-occurrence removal. -/
def Task.unassign_user (t : Task) (user_id : Int) : Task :=
  { t with assigned_to := t.assigned_to.erase user_id }

/-- `Task.mark_completed`. -/
def Task.mark_completed (t : Task) : Task := { t with status := "completed" }

/-- `Task.mark_in_progress`. -/
def Task.mark_in_progress (t : Task) : Task := { t with status := "in_progress" }

/-- `Task.mark_pending`. -/
def Task.mark_pending (t : Task) : Task := { t with status := "pending" }

/-- The plain dict produced by `Task.to_dict` / consumed by `Task.from_dict`. -/
structure TaskRec where
  id : Int
  title : String
  status : String
  project_id : Int
  assigned_to : List Int
deriving DecidableEq, Repr

/-- `Task.to_dict`. -/
def Task.to_dict (t : Task) : TaskRec :=
  ⟨t.id, t.title, t.status, t.project_id, t.assigned_to⟩

/-- `Task.from_dict`: everything goes back through the constructor
(`status=data.get('status', 'pending')`, `assigned_to=data.get('assigned_to',
[])`, `task_id=data['id']`). -/
def Task.from_dict (d : TaskRec) (c : Counters) : Task × Counters :=
  Task.init d.title d.project_id d.status (some d.assigned_to) (some d.id) c

/-! ## `src/utils/storage.py` — the store over well-formed documents

A document written by `DataStore.save` is `json.dump` of the three typed
collections; reading such a file back through `json.loads` recovers the
same records.  This typed layer therefore represents `self.data` directly
as the three record lists.  (The fully dynamic behaviour of `load` on
arbitrary file content is modelled separately below over `JValue`.) -/

/-- `self.data`: the three-collection document. -/
structure StoreData where
  users : List UserRec
  projects : List ProjectRec
  tasks : List TaskRec
deriving DecidableEq, Repr

/-- The freshly initialized document `{'users': [], 'projects': [], 'tasks': []}`. -/
def StoreData.empty : StoreData := ⟨[], [], []⟩

namespace DataStore

/-- Python `max` over a list of ints (`None` for the empty list, where
Python would raise; the callers guard on truthiness first). -/
def pyListMax : List Int → Option Int
  | [] => none
  | x :: xs => some (xs.foldl max x)

/-- `DataStore._update_id_counters`: for each non-empty collection
(`if self.data['users']:` …) set that class counter to `max(ids) + 1`;
an empty collection leaves its counter untouched. -/
def update_id_counters (d : StoreData) (c : Counters) : Counters :=
  let c :=
    match pyListMax (d.users.map UserRec.id) with
    | some m => { c with user := m + 1 }
    | none => c
  let c :=
    match pyListMax (d.projects.map ProjectRec.id) with
    | some m => { c with project := m + 1 }
    | none => c
  match pyListMax (d.tasks.map TaskRec.id) with
  | some m => { c with task := m + 1 }
  | none => c

/-- `DataStore.add_user`: append `user.to_dict()` and persist. -/
def add_user (d : StoreData) (u : User) : StoreData :=
  { d with users := d.users ++ [u.to_dict] }

/-- `DataStore.add_project`. -/
def add_project (d : StoreData) (p : Project) : StoreData :=
  { d with projects := d.projects ++ [p.to_dict] }

/-- `DataStore.add_task`. -/
def add_task (d : StoreData) (t : Task) : StoreData :=
  { d with tasks := d.tasks ++ [t.to_dict] }

/-- The list comprehension `[User.from_dict(u) for u in self.data['users']]`,
threading the counter side effects left to right. -/
def usersFromRecs : List UserRec → Counters → List User × Counters
  | [], c => ([], c)
  | r :: rs, c =>
      let (u, c') := User.from_dict r c
      let (us, c'') := usersFromRecs rs c'
      (u :: us, c'')

/-- `DataStore.get_users`. -/
def get_users (d : StoreData) (c : Counters) : List User × Counters :=
  usersFromRecs d.users c

/-- The list comprehension in `DataStore.get_tasks`. -/
def tasksFromRecs : List TaskRec → Counters → List Task × Counters
  | [], c => ([], c)
  | r :: rs, c =>
      let (t, c') := Task.from_dict r c
      let (ts, c'') := tasksFromRecs rs c'
      (t :: ts, c'')

/-- `DataStore.get_tasks`. -/
def get_tasks (d : StoreData) (c : Counters) : List Task × Counters :=
  tasksFromRecs d.tasks c

/-- `DataStore.update_user` loop: replace the first record with matching
id by `user.to_dict()`; silently do nothing when no record matches. -/
def replaceUserRec : List UserRec → UserRec → List UserRec
  | [], _ => []
  | r :: rs, nr => if r.id = nr.id then nr :: rs else r :: replaceUserRec rs nr

/-- `DataStore.update_user`. -/
def update_user (d : StoreData) (u : User) : StoreData :=
  { d with users := replaceUserRec d.users u.to_dict }

/-- `DataStore.update_project` loop. -/
def replaceProjectRec : List ProjectRec → ProjectRec → List ProjectRec
  | [], _ => []
  | r :: rs, nr => if r.id = nr.id then nr :: rs else r :: replaceProjectRec rs nr

/-- `DataStore.update_project`. -/
def update_project (d : StoreData) (p : Project) : StoreData :=
  { d with projects := replaceProjectRec d.projects p.to_dict }

/-- `DataStore.update_task` loop. -/
def replaceTaskRec : List TaskRec → TaskRec → List TaskRec
  | [], _ => []
  | r :: rs, nr => if r.id = nr.id then nr :: rs else r :: replaceTaskRec rs nr

/-- `DataStore.update_task`. -/
def update_task (d : StoreData) (t : Task) : StoreData :=
  { d with tasks := replaceTaskRec d.tasks t.to_dict }

/-- `DataStore.delete_task` loop: delete the first record with matching id
and report `True`; report `False` (and leave the list as is) when no
record matches. -/
def deleteTaskRecs : List TaskRec → Int → List TaskRec × Bool
  | [], _ => ([], false)
  | r :: rs, i =>
      if r.id = i then (rs, true)
      else
        let (rs', b) := deleteTaskRecs rs i
        (r :: rs', b)

/-- `DataStore.delete_task`. -/
def delete_task (d : StoreData) (task_id : Int) : StoreData × Bool :=
  let (ts, b) := deleteTaskRecs d.tasks task_id
  ({ d with tasks := ts }, b)

end DataStore

/-! ## Store sessions over one file

Every mutating store method persists the whole document, so within a
single-process session the on-disk file always equals the in-memory
document.  A session over one store file is a sequence of operations on
the pair (document, counter globals); `reload` is the construction of a
fresh `DataStore` against the same file (re-parse of the just-written
document followed by `_update_id_counters`). -/

/-- Document plus the process-wide counter globals. -/
structure Sys where
  doc : StoreData
  ctrs : Counters
deriving DecidableEq, Repr

/-- One store operation in a session over a single store file.  The
`create*` operations construct an entity with no explicit id (the CLI
path) and `add_*` it; `update*`/`deleteTask` call the matching store
method; `reload` constructs a new `DataStore` on the same file. -/
inductive Op where
  | createUser (name email : String)
  | createProject (title description : String) (owner : Int) (due : Option DateStr)
  | createTask (title : String) (pid : Int) (status : String) (assigned : Option (List Int))
  | updateUser (u : User)
  | updateProject (p : Project)
  | updateTask (t : Task)
  | deleteTask (tid : Int)
  | reload
deriving DecidableEq, Repr

/-- Small-step semantics of one operation. -/
def Sys.step (s : Sys) : Op → Sys
  | .createUser n e =>
      let (u, c') := User.init n e none s.ctrs
      ⟨DataStore.add_user s.doc u, c'⟩
  | .createProject t dsc o dd =>
      let (p, c') := Project.init t dsc o dd none s.ctrs
      ⟨DataStore.add_project s.doc p, c'⟩
  | .createTask t pid st asg =>
      let (tk, c') := Task.init t pid st asg none s.ctrs
      ⟨DataStore.add_task s.doc tk, c'⟩
  | .updateUser u => ⟨DataStore.update_user s.doc u, s.ctrs⟩
  | .updateProject p => ⟨DataStore.update_project s.doc p, s.ctrs⟩
  | .updateTask t => ⟨DataStore.update_task s.doc t, s.ctrs⟩
  | .deleteTask i => ⟨(DataStore.delete_task s.doc i).1, s.ctrs⟩
  | .reload => ⟨s.doc, DataStore.update_id_counters s.doc s.ctrs⟩

/-- Session state instrumented with a ghost monitor: the ids of tasks
deleted so far, and a flag `freshOk` that turns false the moment a
`createTask` mints an id that previously belonged to a deleted task. -/
structure SysG where
  sys : Sys
  deletedTaskIds : List Int
  freshOk : Bool
deriving DecidableEq, Repr

/-- Instrumented step. -/
def SysG.step (g : SysG) (op : Op) : SysG :=
  match op with
  | .createTask t pid st asg =>
      { sys := g.sys.step (.createTask t pid st asg),
        deletedTaskIds := g.deletedTaskIds,
        freshOk := g.freshOk && !(g.deletedTaskIds.contains g.sys.ctrs.task) }
  | .deleteTask i =>
      { sys := g.sys.step (.deleteTask i),
        deletedTaskIds :=
          if (DataStore.delete_task g.sys.doc i).2 then i :: g.deletedTaskIds
          else g.deletedTaskIds,
        freshOk := g.freshOk }
  | op => { g with sys := g.sys.step op }

/-- Run an instrumented session. -/
def SysG.run (g : SysG) : List Op → SysG
  | [] => g
  | op :: ops => (g.step op).run ops

/-- A fresh process on a fresh (empty) store file. -/
def SysG.start : SysG := ⟨⟨StoreData.empty, Counters.fresh⟩, [], true⟩

/-- `true` when no `reload` occurs after a `deleteTask` in the remaining
operations (the flag records whether a deletion has been seen). -/
def noReloadAfterDel : Bool → List Op → Bool
  | _, [] => true
  | seen, op :: rest =>
    match op with
    | .deleteTask _ => noReloadAfterDel true rest
    | .reload => !seen && noReloadAfterDel seen rest
    | _ => noReloadAfterDel seen rest

/-- The user ids currently stored in the document. -/
def userIds (d : StoreData) : List Int := d.users.map UserRec.id

/-- The project ids currently stored in the document. -/
def projectIds (d : StoreData) : List Int := d.projects.map ProjectRec.id

/-- The task ids currently stored in the document. -/
def taskIds (d : StoreData) : List Int := d.tasks.map TaskRec.id

/-! ## `DataStore.load` over arbitrary file content

`load` assigns `self.data = json.loads(content)` with no shape check, so
the in-memory document can be any JSON value; later lines then behave
duck-typed.  `JValue` is the result of `json.loads`, and the dynamic
operations below mirror Python semantics on it, raising `PyError` the way
CPython does.  Only `json.JSONDecodeError` and `IOError` are caught by
`load`; `TypeError`/`KeyError`/`ValueError` raised by the lines after the
parse propagate to the caller. -/

/-- A parsed JSON value (the result of `json.loads`).  Objects keep the
document key order, as CPython dicts do. -/
inductive JValue where
  | null
  | bool (b : Bool)
  | num (n : Int)
  | str (s : String)
  | arr (xs : List JValue)
  | obj (kvs : List (String × JValue))
deriving Repr

mutual

/-- Python `==` on JSON values: numbers and booleans compare by numeric
value (`True == 1`), lists elementwise, dicts by key lookup (dicts from
`json.loads` have pairwise-distinct keys), cross-type comparisons are
`False` rather than an error. -/
def jEq : JValue → JValue → Bool
  | .null, .null => true
  | .bool a, .bool b => a == b
  | .bool a, .num b => (cond a 1 0 : Int) == b
  | .num a, .bool b => a == (cond b 1 0 : Int)
  | .num a, .num b => a == b
  | .str a, .str b => a == b
  | .arr xs, .arr ys => jEqList xs ys
  | .obj xs, .obj ys => xs.length == ys.length && jEqObjAll xs ys
  | _, _ => false

def jEqList : List JValue → List JValue → Bool
  | [], [] => true
  | x :: xs, y :: ys => jEq x y && jEqList xs ys
  | _, _ => false

def jEqObjAll : List (String × JValue) → List (String × JValue) → Bool
  | [], _ => true
  | (k, v) :: xs, ys => jEqObjLook ys k v && jEqObjAll xs ys

def jEqObjLook : List (String × JValue) → String → JValue → Bool
  | [], _, _ => false
  | (k', v') :: rest, k, v => if k' == k then jEq v v' else jEqObjLook rest k v

end

mutual

/-- Python `x > y` on JSON values as used by `max`: numeric for
numbers/booleans, lexicographic for strings and (recursively) for lists;
anything else (or a mixed pair) raises `TypeError`. -/
def jGT : JValue → JValue → Except PyError Bool
  | .num a, .num b => .ok (decide (b < a))
  | .num a, .bool b => .ok (decide ((cond b 1 0 : Int) < a))
  | .bool a, .num b => .ok (decide (b < (cond a 1 0 : Int)))
  | .bool a, .bool b => .ok (decide ((cond b 1 0 : Int) < (cond a 1 0 : Int)))
  | .str a, .str b => .ok (decide (b < a))
  | .arr xs, .arr ys => jGTList xs ys
  | _, _ => .error .typeError

def jGTList : List JValue → List JValue → Except PyError Bool
  | [], [] => .ok false
  | [], _ :: _ => .ok false
  | _ :: _, [] => .ok true
  | x :: xs, y :: ys => if jEq x y then jGTList xs ys else jGT x y

end

/-- Python truthiness (`if v:`). -/
def jTruthy : JValue → Bool
  | .null => false
  | .bool b => b
  | .num n => n != 0
  | .str s => s != ""
  | .arr xs => !xs.isEmpty
  | .obj kvs => !kvs.isEmpty

/-- Python `k in v` for a string `k`: key membership for dicts, element
equality for lists, substring test for strings, `TypeError` otherwise. -/
def jContains (v : JValue) (k : String) : Except PyError Bool :=
  match v with
  | .obj kvs => .ok (kvs.any (fun p => p.1 == k))
  | .arr xs => .ok (xs.any (fun x => jEq x (.str k)))
  | .str s => .ok (strContainsSub s k)
  | _ => .error .typeError

/-- Replace the value at a key of a CPython dict (or append the new key
at the end, preserving insertion order). -/
def setKey : List (String × JValue) → String → JValue → List (String × JValue)
  | [], k, x => [(k, x)]
  | (k', v') :: rest, k, x =>
      if k' == k then (k, x) :: rest else (k', v') :: setKey rest k x

/-- Python `v[k] = x` for a string `k`: only dicts support it
(`TypeError` for lists, strings, and everything else). -/
def jSetItem (v : JValue) (k : String) (x : JValue) : Except PyError JValue :=
  match v with
  | .obj kvs => .ok (.obj (setKey kvs k x))
  | _ => .error .typeError

/-- Python `v[k]` for a string `k`: dict lookup (`KeyError` when the key
is missing), `TypeError` for every other type. -/
def jGetItem (v : JValue) (k : String) : Except PyError JValue :=
  match v with
  | .obj kvs =>
      match kvs.find? (fun p => p.1 == k) with
      | some p => .ok p.2
      | none => .error .keyError
  | _ => .error .typeError

/-- Python `v.get(k, dflt)`: dicts only (`AttributeError` otherwise). -/
def jDictGet (v : JValue) (k : String) (dflt : JValue) : Except PyError JValue :=
  match v with
  | .obj kvs =>
      match kvs.find? (fun p => p.1 == k) with
      | some p => .ok p.2
      | none => .ok dflt
  | _ => .error .attributeError

/-- Python `for u in v`: lists yield elements, dicts yield their keys,
strings yield their characters, everything else raises `TypeError`. -/
def jIter (v : JValue) : Except PyError (List JValue) :=
  match v with
  | .arr xs => .ok xs
  | .obj kvs => .ok (kvs.map (fun p => .str p.1))
  | .str s => .ok (s.toList.map (fun ch => .str (String.mk [ch])))
  | _ => .error .typeError

/-- The running fold of Python `max`: `if x > cur: cur = x`, interleaving
the `u['id']` extraction of each element with its comparison. -/
def pyMaxIdsGo (cur : JValue) : List JValue → Except PyError JValue
  | [] => .ok cur
  | u :: us => do
      let x ← jGetItem u "id"
      let b ← jGT x cur
      pyMaxIdsGo (if b then x else cur) us

/-- Python `max(u['id'] for u in items)`; `ValueError` on an empty
sequence. -/
def pyMaxIds : List JValue → Except PyError JValue
  | [] => .error .valueError
  | u :: us => do
      let x0 ← jGetItem u "id"
      pyMaxIdsGo x0 us

/-- Python `m + 1` where the result is stored into a class id counter:
defined for numbers (and booleans, which are ints in Python);
`TypeError` for anything else. -/
def jAddOneInt (v : JValue) : Except PyError Int :=
  match v with
  | .num n => .ok (n + 1)
  | .bool b => .ok ((cond b 1 0 : Int) + 1)
  | _ => .error .typeError

/-- `DataStore._update_id_counters` on an arbitrary loaded document:
for each of the three keys, `if self.data[key]:` then
`max(x['id'] for x in self.data[key]) + 1` into that class counter. -/
def updateCountersJ (data : JValue) (c : Counters) : Except PyError Counters := do
  let us ← jGetItem data "users"
  let c ←
    if jTruthy us then do
      let items ← jIter us
      let m ← pyMaxIds items
      let n ← jAddOneInt m
      pure { c with user := n }
    else pure c
  let ps ← jGetItem data "projects"
  let c ←
    if jTruthy ps then do
      let items ← jIter ps
      let m ← pyMaxIds items
      let n ← jAddOneInt m
      pure { c with project := n }
    else pure c
  let ts ← jGetItem data "tasks"
  if jTruthy ts then do
    let items ← jIter ts
    let m ← pyMaxIds items
    let n ← jAddOneInt m
    pure { c with task := n }
  else pure c

/-- The `# Ensure all required keys exist` block of `load`:
`if key not in self.data: self.data[key] = []` for the three keys. -/
def ensureKeysJ (v : JValue) : Except PyError JValue := do
  let bu ← jContains v "users"
  let v ← if bu then pure v else jSetItem v "users" (.arr [])
  let bp ← jContains v "projects"
  let v ← if bp then pure v else jSetItem v "projects" (.arr [])
  let bt ← jContains v "tasks"
  if bt then pure v else jSetItem v "tasks" (.arr [])

/-- The store file as seen by `load`, with `json.loads` applied
denotationally: the file is missing, its stripped content is empty, its
content fails to parse (`json.JSONDecodeError`), or it parses to a JSON
value. -/
inductive FileState where
  | missing
  | blank
  | unparseable (s : String)
  | parsed (v : JValue)

/-- The fresh document from `DataStore.__init__`,
`{'users': [], 'projects': [], 'tasks': []}`. -/
def emptyDocJ : JValue :=
  .obj [("users", .arr []), ("projects", .arr []), ("tasks", .arr [])]

/-- The observable outcome of a completed `DataStore.load`: the in-memory
document, the counter globals, and whether `save()` was called (i.e. the
document was written back to disk). -/
structure LoadResult where
  data : JValue
  ctrs : Counters
  saved : Bool

/-- `DataStore.load`: a missing file keeps the fresh document and writes
it out; blank content resets to the fresh document (no write); a
`json.JSONDecodeError` is caught, the document reset and written out; a
successfully parsed value is taken as `self.data` verbatim, after which
the key-ensuring block and `_update_id_counters` run with no exception
handler for the `TypeError`/`KeyError`/`ValueError` they may raise. -/
def loadJ (fs : FileState) (c : Counters) : Except PyError LoadResult :=
  match fs with
  | .missing => .ok ⟨emptyDocJ, c, true⟩
  | .unparseable _ => .ok ⟨emptyDocJ, c, true⟩
  | .blank => do
      let v ← ensureKeysJ emptyDocJ
      let c' ← updateCountersJ v c
      pure ⟨v, c', false⟩
  | .parsed v => do
      let v' ← ensureKeysJ v
      let c' ← updateCountersJ v' c
      pure ⟨v', c', false⟩

/-- A `User` object built by `User.from_dict` from an arbitrary JSON
element: Python stores whatever values the dict held, without type
checks. -/
structure PyUser where
  id : JValue
  name : JValue
  email : JValue
  projects : JValue

/-- `user_id >= User._id_counter` followed by
`User._id_counter = user_id + 1`: returns the new counter when the
comparison is true, `none` when false, `TypeError` when `user_id` is not
numeric. -/
def jGECounter (v : JValue) (ctr : Int) : Except PyError (Option Int) :=
  match v with
  | .num n => .ok (if n ≥ ctr then some (n + 1) else none)
  | .bool b => .ok (if (cond b 1 0 : Int) ≥ ctr then some ((cond b 1 0 : Int) + 1) else none)
  | _ => .error .typeError

/-- `User.from_dict(u)` on an arbitrary JSON element: the three dict
accesses in keyword-argument order, the constructor with an explicit id,
then `user._projects = data.get('projects', [])`. -/
def userFromDictJ (u : JValue) (c : Counters) : Except PyError (PyUser × Counters) := do
  let name ← jGetItem u "name"
  let email ← jGetItem u "email"
  let uid ← jGetItem u "id"
  let bump ← jGECounter uid c.user
  let c' := match bump with
    | some n => { c with user := n }
    | none => c
  let projs ← jDictGet u "projects" (.arr [])
  pure (⟨uid, name, email, projs⟩, c')

/-- The list comprehension of `get_users`, threading counter effects. -/
def usersFromListJ : List JValue → Counters → Except PyError (List PyUser × Counters)
  | [], c => .ok ([], c)
  | u :: us, c => do
      let (pu, c') ← userFromDictJ u c
      let (rest, c'') ← usersFromListJ us c'
      pure (pu :: rest, c'')

/-- `DataStore.get_users` on an arbitrary loaded document:
`[User.from_dict(u) for u in self.data['users']]`. -/
def getUsersJ (data : JValue) (c : Counters) : Except PyError (List PyUser × Counters) := do
  let us ← jGetItem data "users"
  let items ← jIter us
  usersFromListJ items c

/-! ## Bare construction sequences

For the per-type id-allocation properties: a sequence of entity
constructions with no explicit id, in one process, interleaved across the
three types in any order. -/

/-- One constructor call with no explicit id. -/
inductive MkOp where
  | mkUser (name email : String)
  | mkProject (title description : String) (owner : Int) (due : Option DateStr)
  | mkTask (title : String) (pid : Int) (status : String) (assigned : Option (List Int))

/-- Run the constructions left to right, collecting the assigned ids per
entity type (user ids, project ids, task ids, in construction order). -/
def mkIds : List MkOp → Counters → List Int × List Int × List Int
  | [], _ => ([], [], [])
  | .mkUser n e :: l, c =>
      let (u, c') := User.init n e none c
      let (us, ps, ts) := mkIds l c'
      (u.id :: us, ps, ts)
  | .mkProject t dsc o dd :: l, c =>
      let (p, c') := Project.init t dsc o dd none c
      let (us, ps, ts) := mkIds l c'
      (us, p.id :: ps, ts)
  | .mkTask t pid st asg :: l, c =>
      let (tk, c') := Task.init t pid st asg none c
      let (us, ps, ts) := mkIds l c'
      (us, ps, tk.id :: ts)

/-- How many user constructions a sequence contains. -/
def countMkUser : List MkOp → Nat
  | [] => 0
  | .mkUser _ _ :: l => countMkUser l + 1
  | _ :: l => countMkUser l

/-- How many project constructions a sequence contains. -/
def countMkProject : List MkOp → Nat
  | [] => 0
  | .mkProject _ _ _ _ :: l => countMkProject l + 1
  | _ :: l => countMkProject l

/-- How many task constructions a sequence contains. -/
def countMkTask : List MkOp → Nat
  | [] => 0
  | .mkTask _ _ _ _ :: l => countMkTask l + 1
  | _ :: l => countMkTask l

/-- The integer interval `[start, start + n)` as a list. -/
def idRange (start : Int) (n : Nat) : List Int :=
  (List.range n).map (fun (k : Nat) => start + (k : Int))

/-! ## Supporting lemmas -/

lemma addIfAbsent_of_mem {l : List Int} {x : Int} (h : x ∈ l) :
    addIfAbsent l x = l := by
  simp [addIfAbsent, h]

lemma addIfAbsent_of_not_mem {l : List Int} {x : Int} (h : x ∉ l) :
    addIfAbsent l x = l ++ [x] := by
  simp [addIfAbsent, h]

lemma addIfAbsent_idem (l : List Int) (x : Int) :
    addIfAbsent (addIfAbsent l x) x = addIfAbsent l x := by
  by_cases h : x ∈ l
  · rw [addIfAbsent_of_mem h, addIfAbsent_of_mem h]
  · rw [addIfAbsent_of_not_mem h, addIfAbsent_of_mem (by simp)]

lemma addIfAbsent_nodup {l : List Int} (x : Int) (h : l.Nodup) :
    (addIfAbsent l x).Nodup := by
  by_cases hx : x ∈ l
  · rwa [addIfAbsent_of_mem hx]
  · rw [addIfAbsent_of_not_mem hx]
    simp [List.nodup_append, h, hx]

lemma addIfAbsent_count {l : List Int} (x : Int) (h : l.Nodup) :
    (addIfAbsent l x).count x = 1 := by
  by_cases hx : x ∈ l
  · rw [addIfAbsent_of_mem hx]
    exact List.count_eq_one_of_mem h hx
  · rw [addIfAbsent_of_not_mem hx]
    simp [List.count_append, List.count_eq_zero_of_not_mem hx]

lemma pyListMax_le {l : List Int} {m : Int}
    (hm : DataStore.pyListMax l = some m) : ∀ x ∈ l, x ≤ m := by
  match l with
  | [] => simp [DataStore.pyListMax] at hm
  | a :: as =>
    simp only [DataStore.pyListMax, Option.some.injEq] at hm
    subst hm
    have key : ∀ (xs : List Int) (a : Int),
        a ≤ xs.foldl max a ∧ ∀ x ∈ xs, x ≤ xs.foldl max a := by
      intro xs
      induction xs with
      | nil => simp
      | cons y ys ih =>
        intro b
        refine ⟨le_trans (le_max_left b y) (ih (max b y)).1, ?_⟩
        intro x hx
        rcases List.mem_cons.mp hx with rfl | hx
        · exact le_trans (le_max_right b x) (ih (max b x)).1
        · exact (ih (max b y)).2 x hx
    intro x hx
    rcases List.mem_cons.mp hx with rfl | hx
    · exact (key as x).1
    · exact (key as a).2 x hx

lemma pyListMax_eq_none {l : List Int} :
    DataStore.pyListMax l = none ↔ l = [] := by
  cases l <;> simp [DataStore.pyListMax]

lemma uic_user (d : StoreData) (c : Counters) :
    (DataStore.update_id_counters d c).user =
      (match DataStore.pyListMax (userIds d) with
       | some m => m + 1
       | none => c.user) := by
  cases hu : DataStore.pyListMax (d.users.map UserRec.id) <;>
    cases hp : DataStore.pyListMax (d.projects.map ProjectRec.id) <;>
      cases ht : DataStore.pyListMax (d.tasks.map TaskRec.id) <;>
        simp [DataStore.update_id_counters, userIds, hu, hp, ht]

lemma uic_project (d : StoreData) (c : Counters) :
    (DataStore.update_id_counters d c).project =
      (match DataStore.pyListMax (projectIds d) with
       | some m => m + 1
       | none => c.project) := by
  cases hu : DataStore.pyListMax (d.users.map UserRec.id) <;>
    cases hp : DataStore.pyListMax (d.projects.map ProjectRec.id) <;>
      cases ht : DataStore.pyListMax (d.tasks.map TaskRec.id) <;>
        simp [DataStore.update_id_counters, projectIds, hu, hp, ht]

lemma uic_task (d : StoreData) (c : Counters) :
    (DataStore.update_id_counters d c).task =
      (match DataStore.pyListMax (taskIds d) with
       | some m => m + 1
       | none => c.task) := by
  cases hu : DataStore.pyListMax (d.users.map UserRec.id) <;>
    cases hp : DataStore.pyListMax (d.projects.map ProjectRec.id) <;>
      cases ht : DataStore.pyListMax (d.tasks.map TaskRec.id) <;>
        simp [DataStore.update_id_counters, taskIds, hu, hp, ht]

lemma deleteTaskRecs_of_not_mem {l : List TaskRec} {i : Int}
    (h : i ∉ l.map TaskRec.id) : DataStore.deleteTaskRecs l i = (l, false) := by
  induction l with
  | nil => rfl
  | cons r rs ih =>
    simp only [List.map_cons, List.mem_cons, not_or] at h
    have hne : ¬r.id = i := fun he => h.1 he.symm
    simp [DataStore.deleteTaskRecs, hne, ih h.2]

lemma deleteTaskRecs_snd_of_mem {l : List TaskRec} {i : Int}
    (h : i ∈ l.map TaskRec.id) : (DataStore.deleteTaskRecs l i).2 = true := by
  induction l with
  | nil => simp at h
  | cons r rs ih =>
    by_cases he : r.id = i
    · simp [DataStore.deleteTaskRecs, he]
    · simp only [List.map_cons, List.mem_cons] at h
      rcases h with h | h
      · exact absurd h.symm he
      · simp [DataStore.deleteTaskRecs, he, ih h]

lemma deleteTaskRecs_mem_of_snd {l : List TaskRec} {i : Int}
    (h : (DataStore.deleteTaskRecs l i).2 = true) : i ∈ l.map TaskRec.id := by
  induction l with
  | nil => simp [DataStore.deleteTaskRecs] at h
  | cons r rs ih =>
    by_cases he : r.id = i
    · simp [he]
    · simp only [DataStore.deleteTaskRecs, if_neg he] at h
      simp only [List.map_cons, List.mem_cons]
      exact Or.inr (ih h)

lemma deleteTaskRecs_ids_sublist (l : List TaskRec) (i : Int) :
    ((DataStore.deleteTaskRecs l i).1.map TaskRec.id).Sublist (l.map TaskRec.id) := by
  induction l with
  | nil => simp [DataStore.deleteTaskRecs]
  | cons r rs ih =>
    by_cases he : r.id = i
    · simp only [DataStore.deleteTaskRecs, if_pos he, List.map_cons]
      exact List.sublist_cons_self _ _
    · simp only [DataStore.deleteTaskRecs, if_neg he, List.map_cons]
      exact ih.cons₂ _

lemma deleteTaskRecs_not_mem {l : List TaskRec} {i : Int}
    (h : (l.map TaskRec.id).Nodup) :
    i ∉ ((DataStore.deleteTaskRecs l i).1.map TaskRec.id) := by
  induction l with
  | nil => simp [DataStore.deleteTaskRecs]
  | cons r rs ih =>
    simp only [List.map_cons, List.nodup_cons] at h
    by_cases he : r.id = i
    · simp only [DataStore.deleteTaskRecs, if_pos he]
      rw [← he]
      exact h.1
    · simp only [DataStore.deleteTaskRecs, if_neg he, List.map_cons, List.mem_cons,
        not_or]
      exact ⟨fun hc => he hc.symm, ih h.2⟩

lemma deleteTaskRecs_nodup {l : List TaskRec} {i : Int}
    (h : (l.map TaskRec.id).Nodup) :
    ((DataStore.deleteTaskRecs l i).1.map TaskRec.id).Nodup :=
  h.sublist (deleteTaskRecs_ids_sublist l i)

lemma task_from_dict_id (r : TaskRec) (c : Counters) :
    (Task.from_dict r c).1.id = r.id := rfl

lemma tasksFromRecs_ids (l : List TaskRec) :
    ∀ c, (DataStore.tasksFromRecs l c).1.map Task.id = l.map TaskRec.id := by
  induction l with
  | nil => intro c; rfl
  | cons r rs ih =>
    intro c
    simp only [DataStore.tasksFromRecs, List.map_cons]
    rw [task_from_dict_id, ih]

lemma replaceUserRec_ids (l : List UserRec) (nr : UserRec) :
    (DataStore.replaceUserRec l nr).map UserRec.id = l.map UserRec.id := by
  induction l with
  | nil => rfl
  | cons r rs ih =>
    by_cases he : r.id = nr.id
    · simp [DataStore.replaceUserRec, he]
    · simp [DataStore.replaceUserRec, he, ih]

lemma replaceProjectRec_ids (l : List ProjectRec) (nr : ProjectRec) :
    (DataStore.replaceProjectRec l nr).map ProjectRec.id = l.map ProjectRec.id := by
  induction l with
  | nil => rfl
  | cons r rs ih =>
    by_cases he : r.id = nr.id
    · simp [DataStore.replaceProjectRec, he]
    · simp [DataStore.replaceProjectRec, he, ih]

lemma replaceTaskRec_ids (l : List TaskRec) (nr : TaskRec) :
    (DataStore.replaceTaskRec l nr).map TaskRec.id = l.map TaskRec.id := by
  induction l with
  | nil => rfl
  | cons r rs ih =>
    by_cases he : r.id = nr.id
    · simp [DataStore.replaceTaskRec, he]
    · simp [DataStore.replaceTaskRec, he, ih]

/-! ## Claim C1 -/

/-- C1, counterexample.  The claim says construction on any file whose
content is not a well-formed three-collection document never raises.  But
`load` only catches `json.JSONDecodeError` and `IOError`: the file content
`[1, 2]` is valid JSON that is not a three-collection document, the parse
succeeds, and the key-ensuring line `self.data['users'] = []` then raises
an uncaught `TypeError` (list indices must be integers), which propagates
out of the `DataStore` constructor. -/
theorem c1_counterexample :
    loadJ (.parsed (.arr [.num 1, .num 2])) Counters.fresh = .error .typeError := by
  simp [loadJ, ensureKeysJ, jContains, jEq, jSetItem, Bind.bind, Except.bind]

/-- C1, amended: for file content that fails JSON parsing (garbage text,
malformed JSON), construction never raises: `load` silently resets the
document to the three empty collections, writes it out (`saved = true`),
leaves the id counters untouched, and `get_users()` on that reinitialized
document returns the empty list. -/
theorem c1_amended (s : String) (c : Counters) :
    loadJ (.unparseable s) c = .ok ⟨emptyDocJ, c, true⟩ ∧
    getUsersJ emptyDocJ c = .ok ([], c) :=
  ⟨rfl, rfl⟩

/-! ## Claim C2 -/

/-- The store's id/counter invariant: every stored id of each entity type
is below that type's counter, and the stored ids of each type are
pairwise distinct. -/
def SysOk (s : Sys) : Prop :=
  (∀ i ∈ userIds s.doc, i < s.ctrs.user) ∧ (userIds s.doc).Nodup ∧
  (∀ i ∈ projectIds s.doc, i < s.ctrs.project) ∧ (projectIds s.doc).Nodup ∧
  (∀ i ∈ taskIds s.doc, i < s.ctrs.task) ∧ (taskIds s.doc).Nodup

/-- The instrumented invariant: the store invariant, every deleted task
id below the task counter, and the freshness monitor still true. -/
def GOk (g : SysG) : Prop :=
  SysOk g.sys ∧ (∀ i ∈ g.deletedTaskIds, i < g.sys.ctrs.task) ∧ g.freshOk = true

lemma stepG_sys (g : SysG) (op : Op) : (SysG.step g op).sys = Sys.step g.sys op := by
  cases op <;> rfl

lemma step_sysOk {s : Sys} (op : Op) (h : SysOk s) : SysOk (s.step op) := by
  obtain ⟨hu, hun, hp, hpn, ht, htn⟩ := h
  cases op with
  | createUser n e =>
      have hnotin : s.ctrs.user ∉ userIds s.doc :=
        fun hc => absurd (hu _ hc) (lt_irrefl _)
      have e1 : userIds (s.step (.createUser n e)).doc =
          userIds s.doc ++ [s.ctrs.user] := by
        simp [Sys.step, DataStore.add_user, User.init, User.to_dict, userIds]
      refine ⟨?_, ?_, hp, hpn, ht, htn⟩
      · intro i hi
        rw [e1] at hi
        show i < s.ctrs.user + 1
        rcases List.mem_append.mp hi with h1 | h1
        · exact lt_trans (hu i h1) (lt_add_one _)
        · simp only [List.mem_singleton] at h1
          subst h1
          exact lt_add_one _
      · rw [e1]
        refine List.nodup_append.mpr ⟨hun, List.nodup_singleton _, ?_⟩
        intro a ha hb
        simp only [List.mem_singleton] at hb
        subst hb
        exact hnotin ha
  | createProject t dsc o dd =>
      have hnotin : s.ctrs.project ∉ projectIds s.doc :=
        fun hc => absurd (hp _ hc) (lt_irrefl _)
      have e1 : projectIds (s.step (.createProject t dsc o dd)).doc =
          projectIds s.doc ++ [s.ctrs.project] := by
        simp [Sys.step, DataStore.add_project, Project.init, Project.to_dict,
          projectIds]
      refine ⟨hu, hun, ?_, ?_, ht, htn⟩
      · intro i hi
        rw [e1] at hi
        show i < s.ctrs.project + 1
        rcases List.mem_append.mp hi with h1 | h1
        · exact lt_trans (hp i h1) (lt_add_one _)
        · simp only [List.mem_singleton] at h1
          subst h1
          exact lt_add_one _
      · rw [e1]
        refine List.nodup_append.mpr ⟨hpn, List.nodup_singleton _, ?_⟩
        intro a ha hb
        simp only [List.mem_singleton] at hb
        subst hb
        exact hnotin ha
  | createTask t pid st asg =>
      have hnotin : s.ctrs.task ∉ taskIds s.doc :=
        fun hc => absurd (ht _ hc) (lt_irrefl _)
      have e1 : taskIds (s.step (.createTask t pid st asg)).doc =
          taskIds s.doc ++ [s.ctrs.task] := by
        simp [Sys.step, DataStore.add_task, Task.init, Task.to_dict, taskIds]
      refine ⟨hu, hun, hp, hpn, ?_, ?_⟩
      · intro i hi
        rw [e1] at hi
        show i < s.ctrs.task + 1
        rcases List.mem_append.mp hi with h1 | h1
        · exact lt_trans (ht i h1) (lt_add_one _)
        · simp only [List.mem_singleton] at h1
          subst h1
          exact lt_add_one _
      · rw [e1]
        refine List.nodup_append.mpr ⟨htn, List.nodup_singleton _, ?_⟩
        intro a ha hb
        simp only [List.mem_singleton] at hb
        subst hb
        exact hnotin ha
  | updateUser u =>
      have e : userIds (s.step (.updateUser u)).doc = userIds s.doc :=
        replaceUserRec_ids s.doc.users u.to_dict
      exact ⟨fun i hi => hu i (e ▸ hi), e.symm ▸ hun, hp, hpn, ht, htn⟩
  | updateProject p =>
      have e : projectIds (s.step (.updateProject p)).doc = projectIds s.doc :=
        replaceProjectRec_ids s.doc.projects p.to_dict
      exact ⟨hu, hun, fun i hi => hp i (e ▸ hi), e.symm ▸ hpn, ht, htn⟩
  | updateTask t =>
      have e : taskIds (s.step (.updateTask t)).doc = taskIds s.doc :=
        replaceTaskRec_ids s.doc.tasks t.to_dict
      exact ⟨hu, hun, hp, hpn, fun i hi => ht i (e ▸ hi), e.symm ▸ htn⟩
  | deleteTask i =>
      refine ⟨hu, hun, hp, hpn, ?_, htn.sublist (deleteTaskRecs_ids_sublist s.doc.tasks i)⟩
      intro j hj
      exact ht j ((deleteTaskRecs_ids_sublist s.doc.tasks i).subset hj)
  | reload =>
      refine ⟨?_, hun, ?_, hpn, ?_, htn⟩
      · intro i hi
        have hi' : i ∈ userIds s.doc := hi
        show i < (DataStore.update_id_counters s.doc s.ctrs).user
        rw [uic_user]
        cases hmx : DataStore.pyListMax (userIds s.doc) with
        | none => exact hu i hi'
        | some m => exact Int.lt_add_one_iff.mpr (pyListMax_le hmx i hi')
      · intro i hi
        have hi' : i ∈ projectIds s.doc := hi
        show i < (DataStore.update_id_counters s.doc s.ctrs).project
        rw [uic_project]
        cases hmx : DataStore.pyListMax (projectIds s.doc) with
        | none => exact hp i hi'
        | some m => exact Int.lt_add_one_iff.mpr (pyListMax_le hmx i hi')
      · intro i hi
        have hi' : i ∈ taskIds s.doc := hi
        show i < (DataStore.update_id_counters s.doc s.ctrs).task
        rw [uic_task]
        cases hmx : DataStore.pyListMax (taskIds s.doc) with
        | none => exact ht i hi'
        | some m => exact Int.lt_add_one_iff.mpr (pyListMax_le hmx i hi')

lemma stepG_gok {g : SysG} (op : Op) (h : GOk g)
    (hre : op = Op.reload → g.deletedTaskIds = []) : GOk (g.step op) := by
  obtain ⟨hs, hd, hf⟩ := h
  cases op with
  | createTask t pid st asg =>
      rw [GOk, stepG_sys]
      refine ⟨step_sysOk _ hs, ?_, ?_⟩
      · intro i hi
        show i < g.sys.ctrs.task + 1
        exact lt_trans (hd i hi) (lt_add_one _)
      · have hcontains : g.deletedTaskIds.contains g.sys.ctrs.task = false := by
          by_contra hx
          rw [Bool.not_eq_false] at hx
          exact absurd (hd _ (List.mem_of_elem_eq_true hx)) (lt_irrefl _)
        show (g.freshOk && !(g.deletedTaskIds.contains g.sys.ctrs.task)) = true
        rw [hf, hcontains]
        rfl
  | deleteTask i =>
      rw [GOk, stepG_sys]
      refine ⟨step_sysOk _ hs, ?_, hf⟩
      intro j hj
      show j < g.sys.ctrs.task
      by_cases hb : (DataStore.delete_task g.sys.doc i).2 = true
      · have hj' : j ∈ (if (DataStore.delete_task g.sys.doc i).2 then
            i :: g.deletedTaskIds else g.deletedTaskIds) := hj
        rw [if_pos hb] at hj'
        rcases List.mem_cons.mp hj' with rfl | hm
        · have hmem : j ∈ taskIds g.sys.doc := deleteTaskRecs_mem_of_snd hb
          exact hs.2.2.2.2.1 j hmem
        · exact hd j hm
      · have hj' : j ∈ (if (DataStore.delete_task g.sys.doc i).2 then
            i :: g.deletedTaskIds else g.deletedTaskIds) := hj
        rw [if_neg hb] at hj'
        exact hd j hj'
  | reload =>
      have hempty := hre rfl
      refine ⟨by rw [stepG_sys]; exact step_sysOk _ hs, ?_, hf⟩
      intro j hj
      have hj' : j ∈ g.deletedTaskIds := hj
      rw [hempty] at hj'
      simp at hj'
  | createUser n e =>
      exact ⟨by rw [stepG_sys]; exact step_sysOk _ hs, fun j hj => hd j hj, hf⟩
  | createProject t dsc o dd =>
      exact ⟨by rw [stepG_sys]; exact step_sysOk _ hs, fun j hj => hd j hj, hf⟩
  | updateUser u =>
      exact ⟨by rw [stepG_sys]; exact step_sysOk _ hs, fun j hj => hd j hj, hf⟩
  | updateProject p =>
      exact ⟨by rw [stepG_sys]; exact step_sysOk _ hs, fun j hj => hd j hj, hf⟩
  | updateTask t =>
      exact ⟨by rw [stepG_sys]; exact step_sysOk _ hs, fun j hj => hd j hj, hf⟩

lemma runG_gok : ∀ (ops : List Op) (g : SysG) (b : Bool), GOk g →
    (b = false → g.deletedTaskIds = []) →
    noReloadAfterDel b ops = true → GOk (SysG.run g ops) := by
  intro ops
  induction ops with
  | nil => exact fun g b hg _ _ => hg
  | cons op rest ih =>
    intro g b hg hflag hnr
    cases op with
    | deleteTask i =>
        exact ih _ true (stepG_gok _ hg (fun h => Op.noConfusion h))
          (fun h => absurd h (by decide)) hnr
    | reload =>
        have hb : b = false := by
          cases hbv : b
          · rfl
          · rw [hbv] at hnr
            have h' : (!true && noReloadAfterDel true rest) = true := hnr
            simp at h'
        have hrest : noReloadAfterDel b rest = true := by
          have h' : (!b && noReloadAfterDel b rest) = true := hnr
          rw [hb] at h' ⊢
          simpa using h'
        have hempty := hflag hb
        refine ih _ b (stepG_gok _ hg (fun _ => hempty)) (fun _ => ?_) hrest
        show g.deletedTaskIds = []
        exact hempty
    | createUser n e =>
        exact ih _ b (stepG_gok _ hg (fun h => Op.noConfusion h))
          (fun hbf => hflag hbf) hnr
    | createProject t dsc o dd =>
        exact ih _ b (stepG_gok _ hg (fun h => Op.noConfusion h))
          (fun hbf => hflag hbf) hnr
    | createTask t pid st asg =>
        exact ih _ b (stepG_gok _ hg (fun h => Op.noConfusion h))
          (fun hbf => hflag hbf) hnr
    | updateUser u =>
        exact ih _ b (stepG_gok _ hg (fun h => Op.noConfusion h))
          (fun hbf => hflag hbf) hnr
    | updateProject p =>
        exact ih _ b (stepG_gok _ hg (fun h => Op.noConfusion h))
          (fun hbf => hflag hbf) hnr
    | updateTask t =>
        exact ih _ b (stepG_gok _ hg (fun h => Op.noConfusion h))
          (fun hbf => hflag hbf) hnr

lemma run_sysOk (ops : List Op) : ∀ g : SysG, SysOk g.sys →
    SysOk (SysG.run g ops).sys := by
  induction ops with
  | nil => exact fun g h => h
  | cons op rest ih =>
    intro g h
    exact ih _ (by rw [stepG_sys]; exact step_sysOk op h)

lemma start_sysOk : SysOk SysG.start.sys := by
  refine ⟨fun i hi => ?_, ?_, fun i hi => ?_, ?_, fun i hi => ?_, ?_⟩
  · simp [SysG.start, StoreData.empty, userIds] at hi
  · simp [SysG.start, StoreData.empty, userIds]
  · simp [SysG.start, StoreData.empty, projectIds] at hi
  · simp [SysG.start, StoreData.empty, projectIds]
  · simp [SysG.start, StoreData.empty, taskIds] at hi
  · simp [SysG.start, StoreData.empty, taskIds]

lemma start_gok : GOk SysG.start :=
  ⟨start_sysOk, fun i hi => by simp [SysG.start] at hi, rfl⟩

/-- C2, counterexample.  The claim includes store reloads among the
covered operations and says a deleted task's id is never reassigned.  But
after creating tasks 1 and 2, deleting task 2 and constructing a new
store on the same file, `_update_id_counters` recomputes the task counter
from the surviving maximum id (1), setting it back to 2 — and the next
created task is assigned id 2, the id of the deleted task (the freshness
monitor trips, and the final document holds the new task "c" under the
recycled id 2). -/
theorem c2_counterexample :
    (SysG.run SysG.start [.createTask "a" 1 "pending" none,
      .createTask "b" 1 "pending" none, .deleteTask 2, .reload,
      .createTask "c" 1 "pending" none]).freshOk = false ∧
    (SysG.run SysG.start [.createTask "a" 1 "pending" none,
      .createTask "b" 1 "pending" none, .deleteTask 2, .reload,
      .createTask "c" 1 "pending" none]).deletedTaskIds = [2] ∧
    taskIds (SysG.run SysG.start [.createTask "a" 1 "pending" none,
      .createTask "b" 1 "pending" none, .deleteTask 2, .reload,
      .createTask "c" 1 "pending" none]).sys.doc = [1, 2] ∧
    (SysG.run SysG.start [.createTask "a" 1 "pending" none,
      .createTask "b" 1 "pending" none, .deleteTask 2, .reload,
      .createTask "c" 1 "pending" none]).sys.doc.tasks.map TaskRec.title =
      ["a", "c"] := by
  refine ⟨by decide, by decide, by decide, by decide⟩

/-- C2, amended: over every operation sequence on one store file, the
stored ids of each entity type stay pairwise distinct; and as long as no
store reload happens after a deletion, an id that belonged to a deleted
task is never assigned to a newly created task (the freshness monitor
stays true).  A reload after a deletion may lower the task counter past a
deleted id and reassign it (see the counterexample). -/
theorem c2_id_uniqueness (ops : List Op) :
    (userIds (SysG.run SysG.start ops).sys.doc).Nodup ∧
    (projectIds (SysG.run SysG.start ops).sys.doc).Nodup ∧
    (taskIds (SysG.run SysG.start ops).sys.doc).Nodup ∧
    (noReloadAfterDel false ops = true →
      (SysG.run SysG.start ops).freshOk = true) := by
  have hs := run_sysOk ops SysG.start start_sysOk
  exact ⟨hs.2.1, hs.2.2.2.1, hs.2.2.2.2.2,
    fun h => (runG_gok ops SysG.start false start_gok (fun _ => rfl) h).2.2⟩

/-- C2 witness: a create/delete/create session with no reload keeps ids
unique and never recycles the deleted id. -/
theorem c2_witness :
    noReloadAfterDel false [Op.createTask "a" 1 "pending" none,
      Op.deleteTask 1, Op.createTask "b" 1 "pending" none] = true ∧
    (taskIds (SysG.run SysG.start [Op.createTask "a" 1 "pending" none,
      Op.deleteTask 1, Op.createTask "b" 1 "pending" none]).sys.doc).Nodup ∧
    (SysG.run SysG.start [Op.createTask "a" 1 "pending" none,
      Op.deleteTask 1, Op.createTask "b" 1 "pending" none]).freshOk = true :=
  ⟨by decide,
   (c2_id_uniqueness [Op.createTask "a" 1 "pending" none,
      Op.deleteTask 1, Op.createTask "b" 1 "pending" none]).2.2.1,
   (c2_id_uniqueness [Op.createTask "a" 1 "pending" none,
      Op.deleteTask 1, Op.createTask "b" 1 "pending" none]).2.2.2 (by decide)⟩

/-! ## Claim C3 -/

/-- C3, counterexample.  The claim says a counter is "left at 1" for an
empty collection, but `_update_id_counters` leaves it at whatever the
process-global counter already was.  After two tasks have been constructed
in the process (`Task._id_counter` is 3), loading a store whose file holds
one user and no tasks leaves the task counter at 3, not 1. -/
theorem c3_counterexample :
    (Task.init "b" 1 "pending" none none
      (Task.init "a" 1 "pending" none none Counters.fresh).2).2 = ⟨1, 1, 3⟩ ∧
    DataStore.update_id_counters
      ⟨[⟨1, "Alice", "alice@example.com", []⟩], [], []⟩ ⟨1, 1, 3⟩ = ⟨2, 1, 3⟩ :=
  ⟨rfl, rfl⟩

/-- C3, amended: on load, each entity type's counter is set to
`max(existing_ids) + 1` when that collection is non-empty, and is left
*unchanged* (which equals 1 only in a process where no entity of that type
was constructed before) when the collection is empty.  In particular,
loading a file whose only task has id 7 and then constructing a `Task`
without an explicit id yields id 8, whatever the counters were before. -/
theorem c3_counters (d : StoreData) (c : Counters) :
    (∀ m, DataStore.pyListMax (userIds d) = some m →
      (DataStore.update_id_counters d c).user = m + 1) ∧
    (d.users = [] → (DataStore.update_id_counters d c).user = c.user) ∧
    (∀ m, DataStore.pyListMax (projectIds d) = some m →
      (DataStore.update_id_counters d c).project = m + 1) ∧
    (d.projects = [] → (DataStore.update_id_counters d c).project = c.project) ∧
    (∀ m, DataStore.pyListMax (taskIds d) = some m →
      (DataStore.update_id_counters d c).task = m + 1) ∧
    (d.tasks = [] → (DataStore.update_id_counters d c).task = c.task) ∧
    (taskIds d = [7] →
      (Task.init "New" 1 "pending" none none
        (DataStore.update_id_counters d c)).1.id = 8) := by
  refine ⟨fun m hm => ?_, fun h => ?_, fun m hm => ?_, fun h => ?_,
    fun m hm => ?_, fun h => ?_, fun h => ?_⟩
  · rw [uic_user, hm]
  · rw [uic_user, pyListMax_eq_none.mpr (by simp [userIds, h])]
  · rw [uic_project, hm]
  · rw [uic_project, pyListMax_eq_none.mpr (by simp [projectIds, h])]
  · rw [uic_task, hm]
  · rw [uic_task, pyListMax_eq_none.mpr (by simp [taskIds, h])]
  · show (DataStore.update_id_counters d c).task = 8
    rw [uic_task, h]
    rfl

/-- C3 witness: at a store whose file holds exactly one task with id 7
(and one user), with arbitrary prior counters 5/5/5, the task counter
becomes 8 and the next constructed task gets id 8. -/
theorem c3_witness :
    DataStore.pyListMax (taskIds ⟨[⟨1, "Alice", "a@x", []⟩], [],
        [⟨7, "t", "pending", 1, []⟩]⟩) = some 7 ∧
    (DataStore.update_id_counters ⟨[⟨1, "Alice", "a@x", []⟩], [],
        [⟨7, "t", "pending", 1, []⟩]⟩ ⟨5, 5, 5⟩).task = 7 + 1 ∧
    taskIds ⟨[⟨1, "Alice", "a@x", []⟩], [], [⟨7, "t", "pending", 1, []⟩]⟩ = [7] ∧
    (Task.init "New" 1 "pending" none none
      (DataStore.update_id_counters ⟨[⟨1, "Alice", "a@x", []⟩], [],
        [⟨7, "t", "pending", 1, []⟩]⟩ ⟨5, 5, 5⟩)).1.id = 8 :=
  ⟨rfl,
   (c3_counters ⟨[⟨1, "Alice", "a@x", []⟩], [], [⟨7, "t", "pending", 1, []⟩]⟩
      ⟨5, 5, 5⟩).2.2.2.2.1 7 rfl,
   rfl,
   (c3_counters ⟨[⟨1, "Alice", "a@x", []⟩], [], [⟨7, "t", "pending", 1, []⟩]⟩
      ⟨5, 5, 5⟩).2.2.2.2.2.2 rfl⟩

/-! ## Claim C4 -/

lemma idRange_succ (s : Int) (n : Nat) :
    idRange s (n + 1) = s :: idRange (s + 1) n := by
  simp only [idRange, List.range_succ_eq_map, List.map_cons, List.map_map]
  rw [List.map_congr_left (g := fun k : Nat => s + 1 + (k : Int))
    (fun a ha => by simp only [Function.comp_apply, Nat.succ_eq_add_one]; push_cast; ring)]
  simp

lemma mkIds_eq (l : List MkOp) : ∀ c : Counters,
    mkIds l c = (idRange c.user (countMkUser l), idRange c.project (countMkProject l),
      idRange c.task (countMkTask l)) := by
  induction l with
  | nil => intro c; simp [mkIds, countMkUser, countMkProject, countMkTask, idRange]
  | cons op l ih =>
    intro c
    cases op with
    | mkUser n e =>
        simp [mkIds, User.init, ih, countMkUser, countMkProject, countMkTask,
          idRange_succ]
    | mkProject t dsc o dd =>
        simp [mkIds, Project.init, ih, countMkUser, countMkProject, countMkTask,
          idRange_succ]
    | mkTask t pid st asg =>
        simp [mkIds, Task.init, ih, countMkUser, countMkProject, countMkTask,
          idRange_succ]

lemma idRange_chain (s : Int) (n : Nat) : (idRange s n).Chain' (· < ·) := by
  induction n generalizing s with
  | zero => simp [idRange]
  | succ n ih =>
      rw [idRange_succ, List.chain'_cons']
      refine ⟨?_, ih (s + 1)⟩
      intro y hy
      cases n with
      | zero => simp [idRange] at hy
      | succ m =>
          rw [idRange_succ] at hy
          simp only [List.head?_cons, Option.mem_def, Option.some.injEq] at hy
          omega

lemma idRange_nodup (s : Int) (n : Nat) : (idRange s n).Nodup := by
  have h := idRange_chain s n
  rw [List.chain'_iff_pairwise] at h
  exact h.imp (fun hlt => ne_of_lt hlt)

/-- C4: any interleaved sequence of constructions with no explicit ids,
from a fresh process, assigns each entity type the ids `1, 2, …, N` (`N`
the number of constructions of that type), strictly increasing and
pairwise distinct, independently of the constructions of the other two
types. -/
theorem c4_fresh_ids (l : List MkOp) :
    mkIds l Counters.fresh =
      (idRange 1 (countMkUser l), idRange 1 (countMkProject l),
        idRange 1 (countMkTask l)) ∧
    (idRange 1 (countMkUser l)).Chain' (· < ·) ∧
    (idRange 1 (countMkUser l)).Nodup ∧
    (idRange 1 (countMkProject l)).Chain' (· < ·) ∧
    (idRange 1 (countMkProject l)).Nodup ∧
    (idRange 1 (countMkTask l)).Chain' (· < ·) ∧
    (idRange 1 (countMkTask l)).Nodup :=
  ⟨mkIds_eq l Counters.fresh, idRange_chain 1 _, idRange_nodup 1 _,
   idRange_chain 1 _, idRange_nodup 1 _, idRange_chain 1 _, idRange_nodup 1 _⟩

/-! ## Claim C5 -/

/-- C5, counterexample.  The claim says every `User`, however produced,
has a trimmed non-empty name and an email containing `'@'`.  But
`User.__init__` stores `name` and `email` raw with no validation:
`User("", "no-at")` succeeds with an empty name and an at-less email, and
`User(" x ", "a@b")` stores the untrimmed `" x "`. -/
theorem c5_counterexample :
    (User.init "" "no-at" none Counters.fresh).1.name = "" ∧
    pyContainsChar (User.init "" "no-at" none Counters.fresh).1.email '@' = false ∧
    (User.init " x " "a@b" none Counters.fresh).1.name = " x " :=
  ⟨rfl, by decide, rfl⟩

/-- C5, amended: the validated mutators do enforce the invariant — the
`name` setter succeeds exactly on input with non-empty trim and stores the
trimmed value, the `email` setter succeeds exactly on input containing
`'@'` and stores the trimmed value, and each raises `ValueError` otherwise
(leaving the user unchanged: the functional embedding returns no updated
user).  The constructor and `from_dict` bypass this validation and store
values verbatim. -/
theorem c5_amended (u : User) (v : String) :
    (pyStrip v ≠ "" → User.set_name u v = .ok { u with name := pyStrip v }) ∧
    (pyStrip v = "" → User.set_name u v = .error .valueError) ∧
    (pyContainsChar v '@' = true → User.set_email u v = .ok { u with email := pyStrip v }) ∧
    (pyContainsChar v '@' = false → User.set_email u v = .error .valueError) := by
  refine ⟨fun h => ?_, fun h => ?_, fun h => ?_, fun h => ?_⟩
  · rw [User.set_name, if_neg]
    rintro (rfl | hv)
    · exact h rfl
    · exact h hv
  · rw [User.set_name, if_pos (Or.inr h)]
  · rw [User.set_email, if_neg]
    rintro (rfl | hv)
    · exact absurd h (by decide)
    · rw [h] at hv
      simp at hv
  · rw [User.set_email, if_pos (Or.inr h)]

/-- C5 witness: the trimmed name is stored on valid input, and an at-less
email is rejected, at concrete inputs. -/
theorem c5_amended_witness :
    pyStrip " Al " ≠ "" ∧
    User.set_name ⟨1, "x", "y@z", []⟩ " Al " =
      .ok { (⟨1, "x", "y@z", []⟩ : User) with name := pyStrip " Al " } ∧
    (pyContainsChar "no-at" '@' = false) ∧
    User.set_email ⟨1, "x", "y@z", []⟩ "no-at" = .error .valueError :=
  ⟨by decide, (c5_amended ⟨1, "x", "y@z", []⟩ " Al ").1 (by decide),
   by decide, (c5_amended ⟨1, "x", "y@z", []⟩ "no-at").2.2.2 (by decide)⟩

/-! ## Claim C6 -/

/-- C6, counterexample.  The claim says the membership lists never contain
duplicates under every operation that produces them, including
construction and deserialization.  But `Task.__init__` keeps an explicit
`assigned_to` list verbatim (`assigned_to if assigned_to else []`), and
`User.from_dict` assigns `data.get('projects', [])` verbatim, so both can
carry duplicates. -/
theorem c6_counterexample :
    (Task.init "t" 1 "pending" (some [1, 1]) none Counters.fresh).1.assigned_to = [1, 1] ∧
    (User.from_dict ⟨1, "a", "a@b", [2, 2]⟩ Counters.fresh).1.projects = [2, 2] ∧
    ¬ ([1, 1] : List Int).Nodup :=
  ⟨rfl, rfl, by decide⟩

/-- C6, amended: the add/remove mutators do maintain the invariant — each
`add` is idempotent, appends a missing element at the end (preserving
insertion order), leaves a present element alone, preserves
no-duplication, and on a duplicate-free list leaves exactly one entry for
the added element.  Lists passed verbatim through `Task.__init__` or a
`from_dict` are not de-duplicated (see the counterexample). -/
theorem c6_amended (u : User) (p : Project) (t : Task) (x : Int) :
    ((p.add_task x).add_task x = p.add_task x) ∧
    (x ∉ p.tasks → (p.add_task x).tasks = p.tasks ++ [x]) ∧
    (x ∈ p.tasks → (p.add_task x).tasks = p.tasks) ∧
    (p.tasks.Nodup → (p.add_task x).tasks.Nodup ∧ (p.add_task x).tasks.count x = 1) ∧
    ((u.add_project x).add_project x = u.add_project x) ∧
    (u.projects.Nodup → (u.add_project x).projects.Nodup ∧
      (u.add_project x).projects.count x = 1) ∧
    ((t.assign_user x).assign_user x = t.assign_user x) ∧
    (t.assigned_to.Nodup → (t.assign_user x).assigned_to.Nodup ∧
      (t.assign_user x).assigned_to.count x = 1) := by
  refine ⟨?_, fun h => addIfAbsent_of_not_mem h, fun h => addIfAbsent_of_mem h,
    fun h => ⟨addIfAbsent_nodup x h, addIfAbsent_count x h⟩, ?_,
    fun h => ⟨addIfAbsent_nodup x h, addIfAbsent_count x h⟩, ?_,
    fun h => ⟨addIfAbsent_nodup x h, addIfAbsent_count x h⟩⟩
  · show ({ p with tasks := addIfAbsent (addIfAbsent p.tasks x) x } : Project) = _
    rw [addIfAbsent_idem]
    rfl
  · show ({ u with projects := addIfAbsent (addIfAbsent u.projects x) x } : User) = _
    rw [addIfAbsent_idem]
    rfl
  · show ({ t with assigned_to := addIfAbsent (addIfAbsent t.assigned_to x) x } : Task) = _
    rw [addIfAbsent_idem]
    rfl

/-- C6 witness: adding the same task id twice to a project with a
duplicate-free task list leaves exactly one entry. -/
theorem c6_amended_witness :
    (([] : List Int).Nodup) ∧
    (((⟨1, "p", "", 1, none, []⟩ : Project).add_task 5).add_task 5 =
      (⟨1, "p", "", 1, none, []⟩ : Project).add_task 5) ∧
    ((⟨1, "p", "", 1, none, []⟩ : Project).add_task 5).tasks.count 5 = 1 :=
  ⟨by decide, (c6_amended ⟨1, "x", "y@z", []⟩ ⟨1, "p", "", 1, none, []⟩
      ⟨1, "t", "pending", 1, []⟩ 5).1,
   ((c6_amended ⟨1, "x", "y@z", []⟩ ⟨1, "p", "", 1, none, []⟩
      ⟨1, "t", "pending", 1, []⟩ 5).2.2.2.1 (by decide)).2⟩

/-! ## Claim C7 -/

lemma user_round_trip (u : User) (c : Counters) :
    (User.from_dict (User.to_dict u) c).1 = u := by
  cases u
  rfl

lemma project_round_trip (p : Project) (c : Counters) :
    (Project.from_dict (Project.to_dict p) c).1 = p := by
  cases p with
  | mk i t dsc o dd ts => cases dd <;> rfl

lemma task_init_status (title : String) (pid : Int) (st : String)
    (asg : Option (List Int)) (tid : Option Int) (c : Counters) :
    (Task.init title pid st asg tid c).1.status =
      if st ∈ Task.VALID_STATUSES then st else "pending" := by
  cases tid <;> rfl

lemma task_status_valid (title : String) (pid : Int) (st : String)
    (asg : Option (List Int)) (tid : Option Int) (c : Counters) :
    (Task.init title pid st asg tid c).1.status ∈ Task.VALID_STATUSES := by
  rw [task_init_status]
  by_cases h : st ∈ Task.VALID_STATUSES
  · rwa [if_pos h]
  · rw [if_neg h]
    decide

lemma task_round_trip (t : Task) (c : Counters)
    (h : t.status ∈ Task.VALID_STATUSES) :
    (Task.from_dict (Task.to_dict t) c).1 = t := by
  cases t with
  | mk i title st pid asg =>
    simp only [Task.to_dict, Task.from_dict, Task.init, if_pos h]
    cases asg <;> rfl

/-- C7: for every constructed entity, `from_dict (to_dict E)` is
field-for-field equal to E (whatever the counter state at reconstruction
time), including empty membership lists.  For `Task`, construction coerces
an invalid status to `'pending'`, so the stored status is always one of
the valid ones and survives the round trip. -/
theorem c7_round_trip (n e : String) (uid : Option Int)
    (pt pd : String) (o : Int) (dd : Option DateStr) (pid : Option Int)
    (tt : String) (tp : Int) (st : String) (asg : Option (List Int))
    (tid : Option Int) (c c' : Counters) :
    (User.from_dict (User.to_dict (User.init n e uid c).1) c').1 =
      (User.init n e uid c).1 ∧
    (Project.from_dict (Project.to_dict (Project.init pt pd o dd pid c).1) c').1 =
      (Project.init pt pd o dd pid c).1 ∧
    (Task.from_dict (Task.to_dict (Task.init tt tp st asg tid c).1) c').1 =
      (Task.init tt tp st asg tid c).1 :=
  ⟨user_round_trip _ c', project_round_trip _ c',
   task_round_trip _ c' (task_status_valid tt tp st asg tid c)⟩

/-! ## Claim C8 -/

/-- C8: assigning a status outside the three valid ones through the
validated setter raises `ValueError` (so the task is unchanged — the
functional embedding returns no updated task), while the constructor
accepts the same string and silently coerces the stored status to
`'pending'`. -/
theorem c8_status_asymmetry (t : Task) (s : String)
    (h : s ∉ Task.VALID_STATUSES) (tt : String) (tp : Int)
    (asg : Option (List Int)) (tid : Option Int) (c : Counters) :
    Task.set_status t s = .error .valueError ∧
    (Task.init tt tp s asg tid c).1.status = "pending" := by
  constructor
  · rw [Task.set_status, if_neg h]
  · rw [task_init_status, if_neg h]

/-- C8 witness: the asymmetry at `"bogus"`. -/
theorem c8_witness :
    "bogus" ∉ Task.VALID_STATUSES ∧
    Task.set_status ⟨1, "t", "pending", 1, []⟩ "bogus" = .error .valueError ∧
    (Task.init "Write tests" 1 "bogus" none none Counters.fresh).1.status = "pending" :=
  ⟨by decide,
   (c8_status_asymmetry ⟨1, "t", "pending", 1, []⟩ "bogus" (by decide)
      "Write tests" 1 none none Counters.fresh).1,
   (c8_status_asymmetry ⟨1, "t", "pending", 1, []⟩ "bogus" (by decide)
      "Write tests" 1 none none Counters.fresh).2⟩

/-! ## Claim C9 -/

/-- C9: when the stored task ids are pairwise distinct (the store's
normal state), `delete_task` on a present id reports `True`, the deleted
id no longer appears among the tasks returned by a subsequent
`get_tasks()`, and a second `delete_task` with the same id reports
`False`; `delete_task` on an absent id reports `False` and leaves the
document exactly as it was. -/
theorem c9_delete_task (d : StoreData) (i : Int) (c : Counters)
    (h : (taskIds d).Nodup) :
    (i ∈ taskIds d →
      (DataStore.delete_task d i).2 = true ∧
      (∀ t ∈ (DataStore.get_tasks (DataStore.delete_task d i).1 c).1, t.id ≠ i) ∧
      (DataStore.delete_task (DataStore.delete_task d i).1 i).2 = false) ∧
    (i ∉ taskIds d → DataStore.delete_task d i = (d, false)) := by
  constructor
  · intro hm
    refine ⟨?_, ?_, ?_⟩
    · simp only [DataStore.delete_task]
      exact deleteTaskRecs_snd_of_mem hm
    · intro t ht hti
      have hnm := deleteTaskRecs_not_mem (l := d.tasks) (i := i) h
      have : t.id ∈ (DataStore.get_tasks (DataStore.delete_task d i).1 c).1.map Task.id :=
        List.mem_map_of_mem Task.id ht
      rw [DataStore.get_tasks, tasksFromRecs_ids] at this
      exact hnm (hti ▸ this)
    · have hnm := deleteTaskRecs_not_mem (l := d.tasks) (i := i) h
      simp only [DataStore.delete_task]
      rw [deleteTaskRecs_of_not_mem hnm]
  · intro hm
    simp only [DataStore.delete_task]
    rw [deleteTaskRecs_of_not_mem hm]

/-- C9 witness: a two-task store; deleting id 1 succeeds once and only
once, and id 1 is gone from `get_tasks`. -/
theorem c9_witness :
    (taskIds ⟨[], [], [⟨1, "A", "pending", 1, []⟩, ⟨2, "B", "pending", 1, []⟩]⟩).Nodup ∧
    (1 : Int) ∈ taskIds ⟨[], [], [⟨1, "A", "pending", 1, []⟩, ⟨2, "B", "pending", 1, []⟩]⟩ ∧
    ((DataStore.delete_task ⟨[], [], [⟨1, "A", "pending", 1, []⟩,
        ⟨2, "B", "pending", 1, []⟩]⟩ 1).2 = true ∧
      (∀ t ∈ (DataStore.get_tasks (DataStore.delete_task ⟨[], [],
          [⟨1, "A", "pending", 1, []⟩, ⟨2, "B", "pending", 1, []⟩]⟩ 1).1
          Counters.fresh).1, t.id ≠ 1) ∧
      (DataStore.delete_task (DataStore.delete_task ⟨[], [],
          [⟨1, "A", "pending", 1, []⟩, ⟨2, "B", "pending", 1, []⟩]⟩ 1).1 1).2 = false) :=
  ⟨by decide, by decide,
   (c9_delete_task ⟨[], [], [⟨1, "A", "pending", 1, []⟩, ⟨2, "B", "pending", 1, []⟩]⟩
      1 Counters.fresh (by decide)).1 (by decide)⟩

/-! ## Claim C10 -/

/-- C10: `delete_task` touches only the `tasks` collection — the stored
`users` and `projects` records are exactly the ones from before the call
(so their JSON serialization is byte-for-byte unchanged), and in
particular every project whose `tasks` list mentions the deleted id still
holds that now-dangling id afterwards. -/
theorem c10_delete_task_frame (d : StoreData) (i : Int) :
    (DataStore.delete_task d i).1.users = d.users ∧
    (DataStore.delete_task d i).1.projects = d.projects ∧
    ∀ p ∈ d.projects, i ∈ p.tasks →
      p ∈ (DataStore.delete_task d i).1.projects ∧ i ∈ p.tasks := by
  refine ⟨rfl, rfl, fun p hp hip => ⟨?_, hip⟩⟩
  show p ∈ d.projects
  exact hp

/-- C10 witness: a project referencing task 7 keeps the dangling
reference after the task is deleted. -/
theorem c10_witness :
    ((⟨3, "p", "", 1, none, [7]⟩ : ProjectRec) ∈
        (⟨[], [⟨3, "p", "", 1, none, [7]⟩], [⟨7, "t", "pending", 3, []⟩]⟩ : StoreData).projects ∧
      (7 : Int) ∈ (⟨3, "p", "", 1, none, [7]⟩ : ProjectRec).tasks) ∧
    ((⟨3, "p", "", 1, none, [7]⟩ : ProjectRec) ∈
        (DataStore.delete_task ⟨[], [⟨3, "p", "", 1, none, [7]⟩],
          [⟨7, "t", "pending", 3, []⟩]⟩ 7).1.projects ∧
      (7 : Int) ∈ (⟨3, "p", "", 1, none, [7]⟩ : ProjectRec).tasks) :=
  ⟨⟨by decide, by decide⟩,
   (c10_delete_task_frame ⟨[], [⟨3, "p", "", 1, none, [7]⟩],
      [⟨7, "t", "pending", 3, []⟩]⟩ 7).2.2 ⟨3, "p", "", 1, none, [7]⟩
      (by decide) (by decide)⟩

end PM
